import Mathlib

/-!
Shallow embedding of `substance.rs` from rink-rs: the substance/property
resolution engine (single-value lookup `get`, structured reply `to_reply`,
textual rendering, and the scaling operators), together with the external
`Number` (quantity) contract it consumes.
-/

/-- Dimension vector: exponents over a fixed finite basis of base units
(modelled as a 7-tuple of rational exponents, one per base unit).
`Modelled from the spec:` the Quantity contract, §3 — a mapping from
base-unit symbol to rational exponent; a quantity is dimensionless iff the
mapping is empty, i.e. iff every exponent is zero. -/
abbrev Dim : Type := ℚ × ℚ × ℚ × ℚ × ℚ × ℚ × ℚ

/-- Quantity (`Number` in the source): a rational magnitude paired with a
dimension vector. `Modelled from the spec:` the external Quantity contract
(§3); the source stores the dimension in field `.1` and tests
`self.amount.1.len() == 0` for dimensionlessness, which here is
`unit = 0`. -/
structure Number where
  mag : ℚ
  unit : Dim
deriving DecidableEq

/-- Multiplication of quantities. `Modelled from the spec:` §3 —
`multiply(a, b)` always succeeds; magnitudes multiply and dimensions add
component-wise. -/
def Number.mul (a b : Number) : Number :=
  ⟨a.mag * b.mag, a.unit + b.unit⟩

/-- Division of quantities. `Modelled from the spec:` §3 — `divide(a, b)`
fails (returns `none`) iff the magnitude of `b` is exactly zero; otherwise
magnitudes divide and dimensions subtract component-wise. -/
def Number.div (a b : Number) : Option Number :=
  if b.mag = 0 then none else some ⟨a.mag / b.mag, a.unit - b.unit⟩

/-- A property: a named conversion ratio between two quantities
(`Property` in substance.rs). -/
structure Property where
  input : Number
  input_name : String
  output : Number
  output_name : String
  doc : Option String
deriving DecidableEq

/-- A substance: an amount plus a name-keyed mapping of properties
(`Substance` in substance.rs). The `BTreeMap` is embedded as its iteration
sequence: a list of key-property pairs; the B-tree invariant (unique keys
in lexicographic order) is stated as `SortedKeys` where a claim needs it. -/
structure Substance where
  amount : Number
  properties : List (String × Property)
deriving DecidableEq

/-- The BTreeMap invariant on the embedded association list: keys strictly
increasing in lexicographic (String) order. -/
def SortedKeys (l : List (String × Property)) : Prop :=
  List.Chain' (fun a b : String × Property => a.1 < b.1) l

instance (l : List (String × Property)) : Decidable (SortedKeys l) :=
  inferInstanceAs (Decidable (List.Chain' _ l))

/-- Error type of a failed single-value lookup (`SubstanceGetError`). -/
inductive SubstanceGetError where
  | Generic (msg : String)
  | Conformance (a b : Number)
deriving DecidableEq

/-- Result of `Substance::get`. Rust's `Result<Number, SubstanceGetError>`
plus an explicit `panic` outcome, because the definitional branch of the
source contains `.expect("Non-zero property")`, which panics when the
division fails. -/
inductive GetResult where
  | ok (n : Number)
  | err (e : SubstanceGetError)
  | panic (msg : String)
deriving DecidableEq

/-- The output-name-matched derivation of instance-mode `get`
(substance.rs lines 45-58): `input = prop.input / amount` (zero divisor →
`Generic "Division by zero"`); if `input` is dimensionless the result is
`prop.output / input` (zero divisor → `Generic`), else
`Conformance(amount, prop.input)`. -/
def outputSide (s : Substance) (p : Property) : GetResult :=
  match p.input.div s.amount with
  | none => .err (.Generic "Division by zero")
  | some input =>
    if input.unit = 0 then
      match p.output.div input with
      | none => .err (.Generic "Division by zero")
      | some res => .ok res
    else
      .err (.Conformance s.amount p.input)

/-- The input-name-matched derivation of instance-mode `get`
(substance.rs lines 59-72), symmetric to `outputSide`. -/
def inputSide (s : Substance) (p : Property) : GetResult :=
  match p.output.div s.amount with
  | none => .err (.Generic "Division by zero")
  | some output =>
    if output.unit = 0 then
      match p.input.div output with
      | none => .err (.Generic "Division by zero")
      | some res => .ok res
    else
      .err (.Conformance s.amount p.output)

/-- The instance-mode scan of `Substance::get` (substance.rs lines 44-76):
walk the properties in iteration order; at each property test
`output_name` first, then `input_name`; fall through to
`Generic "No such property <name>"`. -/
def getInstance (s : Substance) (name : String) : List (String × Property) → GetResult
  | [] => .err (.Generic ("No such property " ++ name))
  | (_k, p) :: rest =>
    if name = p.output_name then outputSide s p
    else if name = p.input_name then inputSide s p
    else getInstance s name rest

/-- `Substance::get` (substance.rs lines 34-78). Definitional mode
(dimensionless amount): exact key lookup, then
`(amount * input) / output` with `.expect("Non-zero property")` — a panic
when `output`'s magnitude is zero. Instance mode: the scan above. -/
def Substance.get (s : Substance) (name : String) : GetResult :=
  if s.amount.unit = 0 then
    match s.properties.lookup name with
    | none => .err (.Generic ("No such property " ++ name))
    | some p =>
      match (s.amount.mul p.input).div p.output with
      | none => .panic "Non-zero property"
      | some r => .ok r
  else
    getInstance s name s.properties

/-- Rendered decomposition of a quantity. `Modelled from the spec:` §3
`render(q)` / the source's external `to_parts`, "a display decomposition
..., not specified further"; only the optional `quantity` label is
observable in substance.rs (for the synthetic amount record). -/
structure NumberParts where
  quantity : Option String
  rendered : String
deriving DecidableEq

/-- One display record of a reply (`PropertyReply` in the external
`reply` module, used by substance.rs). -/
structure PropertyReply where
  name : String
  input : Option NumberParts
  output : NumberParts
  doc : Option String
deriving DecidableEq

/-- A structured reply (`SubstanceReply`): the ordered list of records. -/
structure SubstanceReply where
  properties : List PropertyReply
deriving DecidableEq

/-- The renderer context. `Modelled from the spec:` §6 — a collaborator
able to decompose a quantity into displayable form (`to_parts`), show it
as text for error messages (`show_num`), and format a whole reply list as
text (`formatReply`, the `Display` instance of `SubstanceReply` used by
`format!("{}", v)`). It never influences the arithmetic. -/
structure Context where
  to_parts : Number → NumberParts
  show_num : Number → String
  formatReply : SubstanceReply → String

/-- Sequential short-circuiting collection, the embedding of Rust's
`iterator.map(f).collect::<Result<Vec<_>, _>>()`: the first error aborts
and is returned; otherwise the list of successes in order. -/
def collectE {α β ε : Type} (f : α → Except ε β) : List α → Except ε (List β)
  | [] => .ok []
  | x :: xs =>
    match f x with
    | .error e => .error e
    | .ok y =>
      match collectE f xs with
      | .error e => .error e
      | .ok ys => .ok (y :: ys)

/-- Per-property record construction of definitional-mode `to_reply`
(substance.rs lines 83-101): when `input` is dimensionless the output side
becomes `(output * amount) / input` (zero divisor → descriptive error) and
the input side is omitted; otherwise `input`/`output` pass through
unchanged. The record is named by the map key. -/
def defFunc (s : Substance) (ctx : Context) (kv : String × Property) : Except String PropertyReply :=
  let k := kv.1
  let v := kv.2
  if v.input.unit = 0 then
    let res := v.output.mul s.amount
    match res.div v.input with
    | none => .error ("Division by zero: <" ++ ctx.show_num res ++ "> / <" ++ ctx.show_num v.input ++ ">")
    | some o => .ok { name := k, input := none, output := ctx.to_parts o, doc := v.doc }
  else
    .ok { name := k, input := some (ctx.to_parts v.input), output := ctx.to_parts v.output, doc := v.doc }

/-- Per-property record construction of instance-mode `to_reply`
(substance.rs lines 104-142, the closure `func`): compute
`input = v.input / amount` and `output = v.output / amount` (either zero
divisor → descriptive error aborting the call); if `input` is
dimensionless the record is named `output_name` with output
`v.output / input`; else if `output` is dimensionless it is named
`input_name` with output `v.input / output`; else the property is dropped
(`ok none`). -/
def instFunc (s : Substance) (ctx : Context) (kv : String × Property) : Except String (Option PropertyReply) :=
  let v := kv.2
  match v.input.div s.amount with
  | none => .error ("Division by zero: <" ++ ctx.show_num v.input ++ "> / <" ++ ctx.show_num s.amount ++ ">")
  | some input =>
    match v.output.div s.amount with
    | none => .error ("Division by zero: <" ++ ctx.show_num v.output ++ "> / <" ++ ctx.show_num s.amount ++ ">")
    | some output =>
      if input.unit = 0 then
        match v.output.div input with
        | none => .error ("Division by zero: <" ++ ctx.show_num v.output ++ "> / <" ++ ctx.show_num input ++ ">")
        | some d => .ok (some { name := v.output_name, input := none, output := ctx.to_parts d, doc := v.doc })
      else if output.unit = 0 then
        match v.input.div output with
        | none => .error ("Division by zero: <" ++ ctx.show_num v.input ++ "> / <" ++ ctx.show_num output ++ ">")
        | some d => .ok (some { name := v.input_name, input := none, output := ctx.to_parts d, doc := v.doc })
      else
        .ok none

/-- The synthetic record for the amount itself, prepended in instance mode
(substance.rs lines 143-149): named by the amount's display-quantity label
when the renderer provides one, else the literal `"amount"`. -/
def amountReply (s : Substance) (ctx : Context) : PropertyReply :=
  { name := (ctx.to_parts s.amount).quantity.getD "amount"
    input := none
    output := ctx.to_parts s.amount
    doc := none }

/-- `Substance::to_reply` (substance.rs lines 80-160). Definitional mode:
collect one record per property. Instance mode: the amount record followed
by the per-property results, with dropped properties (`none`) filtered
out; the source's `once(Ok(Some(amount))).chain(...)` followed by
`filter_map` is the `filterMap id` of the `some amount :: results`
sequence. -/
def Substance.to_reply (s : Substance) (ctx : Context) : Except String SubstanceReply :=
  if s.amount.unit = 0 then
    match collectE (defFunc s ctx) s.properties with
    | .error e => .error e
    | .ok l => .ok ⟨l⟩
  else
    match collectE (instFunc s ctx) s.properties with
    | .error e => .error e
    | .ok l => .ok ⟨(some (amountReply s ctx) :: l).filterMap id⟩

/-- `Show for Substance` (substance.rs lines 163-170): render the reply on
success, return the error message verbatim on failure. (`show` is a Lean
keyword, hence the primed name.) -/
def Substance.show' (s : Substance) (ctx : Context) : String :=
  match s.to_reply ctx with
  | .ok v => ctx.formatReply v
  | .error e => e

/-- `Mul<&Number> for &Substance` (substance.rs lines 172-182): a new
substance with `amount * other` and the cloned property table; the
`ok_or_else` never fires because multiplication of quantities always
succeeds. -/
def Substance.mulNum (s : Substance) (q : Number) : Except String Substance :=
  .ok { amount := s.amount.mul q, properties := s.properties }

/-- `Div<&Number> for &Substance` (substance.rs lines 184-194): a new
substance with `amount / other` and the cloned property table; fails with
`"Division by zero"` when the divisor's magnitude is zero. -/
def Substance.divNum (s : Substance) (q : Number) : Except String Substance :=
  match s.amount.div q with
  | none => .error "Division by zero"
  | some a => .ok { amount := a, properties := s.properties }

/-- Specification-side rendering of instance-mode `get`, written from the
spec's words for comparison with the code's `getInstance` scan: resolve
against the first property whose `output_name` or `input_name` equals the
queried name (output side tested first), then perform the matched side's
derivation — `Generic "Division by zero"` when a divisor magnitude is
zero, `Conformance` when `step1` is not dimensionless, `Ok` of the final
quotient otherwise. -/
def getSpecScan (s : Substance) (name : String) (l : List (String × Property)) : GetResult :=
  match l.find? (fun kv => name == kv.2.output_name || name == kv.2.input_name) with
  | none => .err (.Generic ("No such property " ++ name))
  | some kv =>
    let p := kv.2
    if name = p.output_name then
      match p.input.div s.amount with
      | none => .err (.Generic "Division by zero")
      | some step1 =>
        if step1.unit ≠ 0 then .err (.Conformance s.amount p.input)
        else
          match p.output.div step1 with
          | none => .err (.Generic "Division by zero")
          | some r => .ok r
    else
      match p.output.div s.amount with
      | none => .err (.Generic "Division by zero")
      | some step1 =>
        if step1.unit ≠ 0 then .err (.Conformance s.amount p.output)
        else
          match p.input.div step1 with
          | none => .err (.Generic "Division by zero")
          | some r => .ok r

/-- Specification-side instance-mode `get`: the scan over the substance's
own property sequence. -/
def getSpecC1 (s : Substance) (name : String) : GetResult :=
  getSpecScan s name s.properties

/-- A property is non-conformant on both sides against a sample: both
quotients `input / amount` and `output / amount` are defined and neither
is dimensionless. Such a property is silently dropped from an
instance-mode reply. -/
def bothNonDim (s : Substance) (v : Property) : Prop :=
  ∃ i o, v.input.div s.amount = some i ∧ v.output.div s.amount = some o ∧ i.unit ≠ 0 ∧ o.unit ≠ 0

/-! Concrete fixtures used by the closed witness and counterexample
theorems below. -/

/-- Base dimension: mass. -/
def dMass : Dim := ((1:ℚ), 0, 0, 0, 0, 0, 0)

/-- Base dimension: volume. -/
def dVol : Dim := ((0:ℚ), 0, 0, 1, 0, 0, 0)

/-- Base dimension: time. -/
def dTime : Dim := ((0:ℚ), 1, 0, 0, 0, 0, 0)

/-- A trivial renderer context for concrete evaluations. -/
def ctxW : Context :=
  { to_parts := fun _ => ⟨none, "r"⟩
    show_num := fun _ => "q"
    formatReply := fun _ => "reply" }

/-- A density-like property: 2 mass per 1 volume. -/
def pGold : Property :=
  { input := ⟨2, dMass⟩, input_name := "mass", output := ⟨1, dVol⟩, output_name := "volume", doc := none }

/-- An instance-mode substance: 4 mass of the `pGold` material. -/
def sInst : Substance := ⟨⟨4, dMass⟩, [("gold", pGold)]⟩

/-- A definitional-mode substance over `pGold`. -/
def sDef : Substance := ⟨⟨1, 0⟩, [("gold", pGold)]⟩

/-- A property whose input side has zero magnitude (conformant dims). -/
def pZeroIn : Property :=
  { input := ⟨0, dMass⟩, input_name := "in", output := ⟨1, dVol⟩, output_name := "out", doc := none }

/-- Instance-mode substance hitting the inner division-by-zero of the
output-side derivation. -/
def sC1 : Substance := ⟨⟨1, dMass⟩, [("k", pZeroIn)]⟩

/-- A property whose output side has zero magnitude. -/
def pZeroOut : Property :=
  { input := ⟨1, dMass⟩, input_name := "mass", output := ⟨0, dVol⟩, output_name := "volume", doc := none }

/-- Definitional-mode substance whose single property has a
zero-magnitude output: `get` on it panics. -/
def sZeroOut : Substance := ⟨⟨1, 0⟩, [("d", pZeroOut)]⟩

/-- Property emitted on its output side against `sInst2` (input quotient
dimensionless). -/
def pA : Property :=
  { input := ⟨4, dMass⟩, input_name := "ain", output := ⟨3, dVol⟩, output_name := "aout", doc := none }

/-- Property emitted on its input side against `sInst2` (output quotient
dimensionless). -/
def pB : Property :=
  { input := ⟨1, dVol⟩, input_name := "bin", output := ⟨5, dMass⟩, output_name := "bout", doc := none }

/-- Property dropped against `sInst2`: neither quotient dimensionless. -/
def pC : Property :=
  { input := ⟨1, dVol⟩, input_name := "cin", output := ⟨1, dTime⟩, output_name := "cout", doc := none }

/-- Instance-mode substance with one property per instance-reply outcome. -/
def sInst2 : Substance := ⟨⟨2, dMass⟩, [("a", pA), ("b", pB), ("c", pC)]⟩

/-- Definitional property with dimensionless input. -/
def pDA : Property :=
  { input := ⟨4, 0⟩, input_name := "dain", output := ⟨3, dVol⟩, output_name := "daout", doc := none }

/-- Definitional property with dimensioned input (passes through). -/
def pDB : Property :=
  { input := ⟨2, dMass⟩, input_name := "dbin", output := ⟨7, dVol⟩, output_name := "dbout", doc := none }

/-- Definitional-mode substance with two properties, sorted keys. -/
def sDef2 : Substance := ⟨⟨2, 0⟩, [("a", pDA), ("b", pDB)]⟩

/-- A property matching neither queried name in the C9 witness. -/
def pNo : Property :=
  { input := ⟨1, dMass⟩, input_name := "nin", output := ⟨1, dVol⟩, output_name := "nout", doc := none }

/-- A property whose two names coincide. -/
def pBoth : Property :=
  { input := ⟨2, dMass⟩, input_name := "x", output := ⟨1, dVol⟩, output_name := "x", doc := none }

/-- Instance-mode substance whose second property carries the same name on
both sides. -/
def sBoth : Substance := ⟨⟨4, dMass⟩, [("a", pNo), ("b", pBoth)]⟩

/-- The record `to_reply` emits for `pA` against `sInst2`. -/
def recA : PropertyReply := ⟨"aout", none, ⟨none, "r"⟩, none⟩

/-- The record `to_reply` emits for `pB` against `sInst2`. -/
def recB : PropertyReply := ⟨"bin", none, ⟨none, "r"⟩, none⟩

/-- The per-property collection results for `sInst2` under `ctxW`. -/
def rsW : List (Option PropertyReply) := [some recA, some recB, none]

/-- The full instance-mode reply of `sInst2` under `ctxW`. -/
def replyI : SubstanceReply := ⟨[⟨"amount", none, ⟨none, "r"⟩, none⟩, recA, recB]⟩

/-- The full definitional-mode reply of `sDef2` under `ctxW`. -/
def replyD : SubstanceReply :=
  ⟨[⟨"a", none, ⟨none, "r"⟩, none⟩, ⟨"b", some ⟨none, "r"⟩, ⟨none, "r"⟩, none⟩]⟩

/-! Helper lemmas about the quantity contract, the collection combinator
and the per-property record constructors. -/

theorem number_div_eq_none_iff (a b : Number) : a.div b = none ↔ b.mag = 0 := by
  unfold Number.div
  split <;> simp_all

theorem number_div_eq_some_iff (a b r : Number) :
    a.div b = some r ↔ b.mag ≠ 0 ∧ r = ⟨a.mag / b.mag, a.unit - b.unit⟩ := by
  unfold Number.div
  split <;> simp_all [eq_comm]

theorem collectE_ok_length {α β ε : Type} (f : α → Except ε β) :
    ∀ (l : List α) (rs : List β), collectE f l = .ok rs → rs.length = l.length := by
  intro l
  induction l with
  | nil => intro rs h; simp [collectE] at h; simp [← h]
  | cons x xs ih =>
    intro rs h
    unfold collectE at h
    cases hf : f x with
    | error e => simp [hf] at h
    | ok y =>
      cases hc : collectE f xs with
      | error e => simp [hf, hc] at h
      | ok ys =>
        simp [hf, hc] at h
        subst h
        simp [ih ys hc]

theorem collectE_ok_get {α β ε : Type} (f : α → Except ε β) :
    ∀ (l : List α) (rs : List β), collectE f l = .ok rs →
      ∀ (i : ℕ) (h1 : i < l.length) (h2 : i < rs.length),
        f (l.get ⟨i, h1⟩) = .ok (rs.get ⟨i, h2⟩) := by
  intro l
  induction l with
  | nil => intro rs _ i h1; exact absurd h1 (by simp)
  | cons x xs ih =>
    intro rs h i h1 h2
    unfold collectE at h
    cases hf : f x with
    | error e => simp [hf] at h
    | ok y =>
      cases hc : collectE f xs with
      | error e => simp [hf, hc] at h
      | ok ys =>
        simp [hf, hc] at h
        subst h
        cases i with
        | zero => simpa using hf
        | succ n =>
          exact ih ys hc n (by simpa using h1) (by simpa using h2)

theorem collectE_error_mem {α β ε : Type} (f : α → Except ε β) :
    ∀ (l : List α) (e : ε), collectE f l = .error e → ∃ x ∈ l, f x = .error e := by
  intro l
  induction l with
  | nil => intro e h; simp [collectE] at h
  | cons x xs ih =>
    intro e h
    unfold collectE at h
    cases hf : f x with
    | error e' =>
      simp [hf] at h
      exact ⟨x, by simp, by simp [hf, h]⟩
    | ok y =>
      cases hc : collectE f xs with
      | error e' =>
        simp [hf, hc] at h
        obtain ⟨z, hz, hze⟩ := ih e' hc
        exact ⟨z, by simp [hz], by simp [hze, h]⟩
      | ok ys => simp [hf, hc] at h

theorem collectE_mem_error {α β ε : Type} (f : α → Except ε β) :
    ∀ (l : List α) (x : α) (e : ε), x ∈ l → f x = .error e →
      ∃ e', collectE f l = .error e' := by
  intro l
  induction l with
  | nil => intro x e hx; exact absurd hx (by simp)
  | cons a as ih =>
    intro x e hx hxe
    unfold collectE
    cases hf : f a with
    | error e' => exact ⟨e', rfl⟩
    | ok y =>
      rcases List.mem_cons.mp hx with hxa | hxs
      · subst hxa
        rw [hxe] at hf
        exact absurd hf (by simp)
      · obtain ⟨e', he'⟩ := ih x e hxs hxe
        exact ⟨e', by simp [he']⟩

theorem collectE_ok_forall {α β ε : Type} (f : α → Except ε β) :
    ∀ (l : List α) (rs : List β), collectE f l = .ok rs →
      ∀ x ∈ l, ∃ y, f x = .ok y := by
  intro l
  induction l with
  | nil => intro rs _ x hx; exact absurd hx (by simp)
  | cons a as ih =>
    intro rs h x hx
    unfold collectE at h
    cases hf : f a with
    | error e => simp [hf] at h
    | ok y =>
      cases hc : collectE f as with
      | error e => simp [hf, hc] at h
      | ok ys =>
        rcases List.mem_cons.mp hx with hxa | hxs
        · exact ⟨y, by simp [hxa, hf]⟩
        · exact ih ys hc x hxs

theorem outputSide_ne_panic (s : Substance) (p : Property) (m : String) :
    outputSide s p ≠ .panic m := by
  unfold outputSide
  cases p.input.div s.amount with
  | none => simp
  | some input =>
    by_cases h : input.unit = 0
    · simp only [h, if_true]
      cases p.output.div input <;> simp
    · simp [h]

theorem inputSide_ne_panic (s : Substance) (p : Property) (m : String) :
    inputSide s p ≠ .panic m := by
  unfold inputSide
  cases p.output.div s.amount with
  | none => simp
  | some output =>
    by_cases h : output.unit = 0
    · simp only [h, if_true]
      cases p.input.div output <;> simp
    · simp [h]

theorem getInstance_ne_panic (s : Substance) (name : String) :
    ∀ (l : List (String × Property)) (m : String), getInstance s name l ≠ .panic m := by
  intro l
  induction l with
  | nil => intro m; simp [getInstance]
  | cons kv rest ih =>
    intro m
    obtain ⟨k, p⟩ := kv
    simp only [getInstance]
    by_cases h1 : name = p.output_name
    · rw [if_pos h1]; exact outputSide_ne_panic s p m
    · rw [if_neg h1]
      by_cases h2 : name = p.input_name
      · rw [if_pos h2]; exact inputSide_ne_panic s p m
      · rw [if_neg h2]; exact ih m

theorem getInstance_append_skip (s : Substance) (name : String) :
    ∀ (pre l : List (String × Property)),
      (∀ kv ∈ pre, name ≠ kv.2.output_name ∧ name ≠ kv.2.input_name) →
      getInstance s name (pre ++ l) = getInstance s name l := by
  intro pre
  induction pre with
  | nil => intro l _; rfl
  | cons kv rest ih =>
    intro l hskip
    obtain ⟨k, p⟩ := kv
    have hk := hskip (k, p) (by simp)
    simp only [List.cons_append, getInstance]
    rw [if_neg hk.1, if_neg hk.2]
    exact ih l (fun x hx => hskip x (by simp [hx]))

theorem defFunc_ok_name (s : Substance) (ctx : Context) (kv : String × Property)
    (r : PropertyReply) (h : defFunc s ctx kv = .ok r) : r.name = kv.1 := by
  unfold defFunc at h
  by_cases hu : kv.2.input.unit = 0
  · simp only [hu, if_true] at h
    cases hd : (kv.2.output.mul s.amount).div kv.2.input with
    | none => simp [hd] at h
    | some o => simp [hd] at h; simp [← h]
  · simp [hu] at h
    simp [← h]

theorem defFunc_ok_no_zero (s : Substance) (ctx : Context) (kv : String × Property)
    (r : PropertyReply) (h : defFunc s ctx kv = .ok r)
    (hu : kv.2.input.unit = 0) : kv.2.input.mag ≠ 0 := by
  intro hz
  unfold defFunc at h
  rw [if_pos hu] at h
  have hd : (kv.2.output.mul s.amount).div kv.2.input = none :=
    (number_div_eq_none_iff _ _).mpr hz
  simp [hd] at h

theorem defFunc_zero_div (s : Substance) (ctx : Context) (kv : String × Property)
    (hu : kv.2.input.unit = 0) (hz : kv.2.input.mag = 0) :
    ∃ e, defFunc s ctx kv = .error e := by
  unfold defFunc
  rw [if_pos hu]
  have hd : (kv.2.output.mul s.amount).div kv.2.input = none :=
    (number_div_eq_none_iff _ _).mpr hz
  simp [hd]

theorem defFunc_error_shape (s : Substance) (ctx : Context) (kv : String × Property)
    (e : String) (h : defFunc s ctx kv = .error e) :
    ∃ a b, e = "Division by zero: <" ++ a ++ "> / <" ++ b ++ ">" := by
  unfold defFunc at h
  by_cases hu : kv.2.input.unit = 0
  · simp only [hu, if_true] at h
    cases hd : (kv.2.output.mul s.amount).div kv.2.input with
    | none =>
      simp [hd] at h
      exact ⟨ctx.show_num (kv.2.output.mul s.amount), ctx.show_num kv.2.input, by simp [← h]⟩
    | some o => simp [hd] at h
  · simp [hu] at h

theorem collectE_def_names (s : Substance) (ctx : Context) :
    ∀ (l : List (String × Property)) (rs : List PropertyReply),
      collectE (defFunc s ctx) l = .ok rs →
      rs.map (fun r => r.name) = l.map (fun kv => kv.1) := by
  intro l
  induction l with
  | nil => intro rs h; simp [collectE] at h; simp [← h]
  | cons kv rest ih =>
    intro rs h
    unfold collectE at h
    cases hf : defFunc s ctx kv with
    | error e => simp [hf] at h
    | ok y =>
      cases hc : collectE (defFunc s ctx) rest with
      | error e => simp [hf, hc] at h
      | ok ys =>
        simp [hf, hc] at h
        subst h
        simp [defFunc_ok_name s ctx kv y hf, ih ys hc]

theorem instFunc_ok_some (s : Substance) (ctx : Context) (kv : String × Property)
    (r : PropertyReply) (h : instFunc s ctx kv = .ok (some r)) :
    (r.name = kv.2.output_name ∨ r.name = kv.2.input_name) ∧ ¬ bothNonDim s kv.2 := by
  unfold instFunc at h
  cases hi : kv.2.input.div s.amount with
  | none => simp [hi] at h
  | some input =>
    cases ho : kv.2.output.div s.amount with
    | none => simp [hi, ho] at h
    | some output =>
      simp only [hi, ho] at h
      by_cases hiu : input.unit = 0
      · rw [if_pos hiu] at h
        cases hd : kv.2.output.div input with
        | none => simp [hd] at h
        | some d =>
          simp [hd] at h
          constructor
          · left; simp [← h]
          · rintro ⟨i', o', hi', ho', hiu', _⟩
            rw [hi] at hi'
            exact hiu' (by cases hi'; exact hiu)
      · rw [if_neg hiu] at h
        by_cases hou : output.unit = 0
        · rw [if_pos hou] at h
          cases hd : kv.2.input.div output with
          | none => simp [hd] at h
          | some d =>
            simp [hd] at h
            constructor
            · right; simp [← h]
            · rintro ⟨i', o', hi', ho', _, hou'⟩
              rw [ho] at ho'
              exact hou' (by cases ho'; exact hou)
        · rw [if_neg hou] at h
          simp at h

theorem instFunc_both_none (s : Substance) (ctx : Context) (kv : String × Property)
    (h : bothNonDim s kv.2) : instFunc s ctx kv = .ok none := by
  obtain ⟨i, o, hi, ho, hiu, hou⟩ := h
  unfold instFunc
  simp only [hi, ho]
  simp [hiu, hou]

theorem instFunc_ne_ok_amount (s : Substance) (ctx : Context) (kv : String × Property)
    (h : s.amount.mag = 0) : ∃ e, instFunc s ctx kv = .error e := by
  unfold instFunc
  have hd : kv.2.input.div s.amount = none := (number_div_eq_none_iff _ _).mpr h
  simp only [hd]
  exact ⟨_, rfl⟩

theorem to_reply_def_mode (s : Substance) (ctx : Context) (h : s.amount.unit = 0) :
    s.to_reply ctx =
      match collectE (defFunc s ctx) s.properties with
      | .error e => .error e
      | .ok l => .ok ⟨l⟩ := by
  unfold Substance.to_reply
  rw [if_pos h]

theorem to_reply_inst_mode (s : Substance) (ctx : Context) (h : s.amount.unit ≠ 0) :
    s.to_reply ctx =
      match collectE (instFunc s ctx) s.properties with
      | .error e => .error e
      | .ok l => .ok ⟨amountReply s ctx :: l.filterMap id⟩ := by
  unfold Substance.to_reply
  rw [if_neg h]
  cases collectE (instFunc s ctx) s.properties <;> simp

theorem getInstance_eq_getSpecScan (s : Substance) (name : String) :
    ∀ l, getInstance s name l = getSpecScan s name l := by
  intro l
  induction l with
  | nil => rfl
  | cons kv rest ih =>
    obtain ⟨k, p⟩ := kv
    by_cases h1 : name = p.output_name
    · simp only [getInstance, if_pos h1, getSpecScan, List.find?_cons]
      have hb : (name == p.output_name || name == p.input_name) = true := by simp [h1]
      simp only [hb, if_pos h1]
      unfold outputSide
      cases p.input.div s.amount with
      | none => rfl
      | some step1 =>
        by_cases hu : step1.unit = 0
        · simp [hu]
        · simp [hu]
    · by_cases h2 : name = p.input_name
      · simp only [getInstance, if_neg h1, if_pos h2, getSpecScan, List.find?_cons]
        have hb : (name == p.output_name || name == p.input_name) = true := by simp [h2]
        simp only [hb, if_neg h1]
        unfold inputSide
        cases p.output.div s.amount with
        | none => rfl
        | some step1 =>
          by_cases hu : step1.unit = 0
          · simp [hu]
          · simp [hu]
      · simp only [getInstance, if_neg h1, if_neg h2, getSpecScan, List.find?_cons]
        have hb : (name == p.output_name || name == p.input_name) = false := by simp [h1, h2]
        simp only [hb]
        simpa only [getSpecScan] using ih

/-! Claim theorems. -/

/-- C1 is falsified as stated: on `sC1` the queried name matches the first
property's `output_name`, the amount's magnitude is nonzero, and
`step1 = property.input / amount` is dimensionless, so the claim requires
`Ok(property.output / step1)`; but `step1` has zero magnitude and the code
returns `Generic "Division by zero"` instead of an `Ok` result. -/
theorem c1_counterexample :
    sC1.amount.unit ≠ 0 ∧ sC1.amount.mag ≠ 0 ∧
    "out" = pZeroIn.output_name ∧ sC1.properties = [("k", pZeroIn)] ∧
    pZeroIn.input.div sC1.amount = some ⟨0, 0⟩ ∧ (⟨0, 0⟩ : Number).unit = 0 ∧
    sC1.get "out" = .err (.Generic "Division by zero") := by
  refine ⟨by decide, by decide, rfl, rfl, ?_, rfl, ?_⟩
  · norm_num [Number.div, sC1, pZeroIn, dMass, Prod.ext_iff]
  · norm_num [Substance.get, getInstance, outputSide, Number.div, sC1, pZeroIn, dMass, dVol,
      Prod.ext_iff]

/-- C1 (amended): for every substance in instance mode and every queried
name, `get` resolves against the first property in iteration order whose
`output_name` or `input_name` equals the name (output side tested first),
computes `step1` as `input / amount` (output-name match) or
`output / amount` (input-name match), and returns
`Generic "Division by zero"` when `amount`'s magnitude is zero,
`Conformance` when `step1` is not dimensionless, `Generic "Division by
zero"` when `step1` is dimensionless with zero magnitude, and `Ok` of the
opposite side divided by `step1` otherwise; with no matching property the
result is `Generic "No such property <name>"` — i.e. `get` coincides with
the specification-side `getSpecC1`. -/
theorem c1_instance_get_amended (s : Substance) (name : String)
    (h : s.amount.unit ≠ 0) : s.get name = getSpecC1 s name := by
  unfold Substance.get getSpecC1
  rw [if_neg h]
  exact getInstance_eq_getSpecScan s name s.properties

/-- Witness for C1 (amended) at the concrete instance substance `sInst`. -/
theorem c1_instance_get_amended_witness :
    sInst.amount.unit ≠ 0 ∧ sInst.get "volume" = getSpecC1 sInst "volume" :=
  ⟨by decide, c1_instance_get_amended sInst "volume" (by decide)⟩

/-- C2 is falsified as stated: `sZeroOut` is in definitional mode and
`"d"` is a key of its property map, but `get` panics (the source's
`.expect("Non-zero property")`) because the property's output magnitude is
zero, instead of returning the claimed `Ok` value. -/
theorem c2_counterexample :
    sZeroOut.amount.unit = 0 ∧
    sZeroOut.properties.lookup "d" = some pZeroOut ∧
    pZeroOut.output.mag = 0 ∧
    sZeroOut.get "d" = .panic "Non-zero property" := by
  refine ⟨rfl, rfl, rfl, rfl⟩

/-- C2 (amended): for every substance in definitional mode and every
queried name, `get` returns `Generic "No such property <name>"` when the
name is not a key of the properties map; otherwise, for the property
stored under that key, it returns
`Ok((amount * property.input) / property.output)` when
`property.output`'s magnitude is nonzero, and panics (asserted internal
invariant `"Non-zero property"`) when that magnitude is zero. -/
theorem c2_definitional_get_amended (s : Substance) (name : String)
    (h : s.amount.unit = 0) :
    (s.properties.lookup name = none →
      s.get name = .err (.Generic ("No such property " ++ name))) ∧
    (∀ p, s.properties.lookup name = some p →
      (p.output.mag = 0 → s.get name = .panic "Non-zero property") ∧
      (p.output.mag ≠ 0 →
        s.get name = .ok ⟨(s.amount.mag * p.input.mag) / p.output.mag,
                          (s.amount.unit + p.input.unit) - p.output.unit⟩)) := by
  unfold Substance.get
  rw [if_pos h]
  constructor
  · intro hl
    simp only [hl]
  · intro p hl
    constructor
    · intro hz
      have hd : (s.amount.mul p.input).div p.output = none :=
        (number_div_eq_none_iff _ _).mpr hz
      simp only [hl, hd]
    · intro hnz
      have hd : (s.amount.mul p.input).div p.output =
          some ⟨(s.amount.mag * p.input.mag) / p.output.mag,
                (s.amount.unit + p.input.unit) - p.output.unit⟩ :=
        (number_div_eq_some_iff _ _ _).mpr ⟨hnz, rfl⟩
      simp only [hl, hd]

/-- Witness for C2 (amended) at the definitional substance `sDef`. -/
theorem c2_definitional_get_amended_witness :
    sDef.get "gold" = .ok ⟨(sDef.amount.mag * pGold.input.mag) / pGold.output.mag,
                           (sDef.amount.unit + pGold.input.unit) - pGold.output.unit⟩ :=
  ((c2_definitional_get_amended sDef "gold" rfl).2 pGold rfl).2 (by decide)

/-- C3 is falsified as stated: a zero-magnitude divisor in the
definitional-mode derivation of `get` (the property's output) causes a
panic, not a `Generic` error. -/
theorem c3_counterexample :
    sZeroOut.amount.unit = 0 ∧ pZeroOut.output.mag = 0 ∧
    sZeroOut.get "d" = .panic "Non-zero property" := by
  refine ⟨rfl, rfl, rfl⟩

theorem instFunc_inner_zero_out (s : Substance) (ctx : Context) (kv : String × Property)
    (i : Number) (hi : kv.2.input.div s.amount = some i) (hu : i.unit = 0)
    (hz : i.mag = 0) : ∃ e, instFunc s ctx kv = .error e := by
  have hamt : s.amount.mag ≠ 0 := by
    intro h0
    rw [(number_div_eq_none_iff kv.2.input s.amount).mpr h0] at hi
    exact absurd hi (by simp)
  have ho : kv.2.output.div s.amount = some ⟨kv.2.output.mag / s.amount.mag,
      kv.2.output.unit - s.amount.unit⟩ :=
    (number_div_eq_some_iff _ _ _).mpr ⟨hamt, rfl⟩
  unfold instFunc
  simp only [hi, ho]
  rw [if_pos hu]
  have hd : kv.2.output.div i = none := (number_div_eq_none_iff _ _).mpr hz
  simp only [hd]
  exact ⟨_, rfl⟩

theorem instFunc_inner_zero_in (s : Substance) (ctx : Context) (kv : String × Property)
    (i o : Number) (hi : kv.2.input.div s.amount = some i)
    (ho : kv.2.output.div s.amount = some o) (hiu : i.unit ≠ 0) (hou : o.unit = 0)
    (hz : o.mag = 0) : ∃ e, instFunc s ctx kv = .error e := by
  unfold instFunc
  simp only [hi, ho]
  rw [if_neg hiu, if_pos hou]
  have hd : kv.2.input.div o = none := (number_div_eq_none_iff _ _).mpr hz
  simp only [hd]
  exact ⟨_, rfl⟩

/-- C3 (amended): instance-mode `get` never panics, and every
zero-magnitude divisor in its derivation chain yields
`Generic "Division by zero"` — both a zero-magnitude amount (the first
division of either matched side) and a zero-magnitude dimensionless
`step1` (the inner division of either matched side), at the first
matching property of the scan; definitional-mode `get` panics exactly
when the looked-up property's output magnitude is zero (the source's
`.expect("Non-zero property")`); and `to_reply` never panics (its only
`unwrap` is on a multiplication, which never fails by the quantity
contract): every zero-magnitude divisor in its derivations aborts the
whole call with an error string — in definitional mode a property whose
dimensionless input has zero magnitude, in instance mode a zero-magnitude
amount or a zero-magnitude inner divisor on either side. -/
theorem c3_no_panic_amended (s : Substance) (name : String) (ctx : Context) :
    (s.amount.unit ≠ 0 → ∀ m, s.get name ≠ .panic m) ∧
    (s.amount.unit ≠ 0 → ∀ (pre : List (String × Property)) (k : String) (p : Property)
      (rest : List (String × Property)),
      s.properties = pre ++ (k, p) :: rest →
      (∀ kv ∈ pre, name ≠ kv.2.output_name ∧ name ≠ kv.2.input_name) →
      ((name = p.output_name ∨ name = p.input_name) → s.amount.mag = 0 →
        s.get name = .err (.Generic "Division by zero")) ∧
      (name = p.output_name → ∀ step1, p.input.div s.amount = some step1 →
        step1.unit = 0 → step1.mag = 0 →
        s.get name = .err (.Generic "Division by zero")) ∧
      (name ≠ p.output_name → name = p.input_name →
        ∀ step1, p.output.div s.amount = some step1 →
        step1.unit = 0 → step1.mag = 0 →
        s.get name = .err (.Generic "Division by zero"))) ∧
    (s.amount.unit = 0 → ∀ m, s.get name = .panic m →
      m = "Non-zero property" ∧
      ∃ p, s.properties.lookup name = some p ∧ p.output.mag = 0) ∧
    (s.amount.unit = 0 → ∀ p, s.properties.lookup name = some p → p.output.mag = 0 →
      s.get name = .panic "Non-zero property") ∧
    (s.amount.unit = 0 → ∀ kv ∈ s.properties,
      kv.2.input.unit = 0 → kv.2.input.mag = 0 →
      ∃ e, s.to_reply ctx = .error e) ∧
    (s.amount.unit ≠ 0 → ∀ kv ∈ s.properties,
      (s.amount.mag = 0 → ∃ e, s.to_reply ctx = .error e) ∧
      (∀ i, kv.2.input.div s.amount = some i → i.unit = 0 → i.mag = 0 →
        ∃ e, s.to_reply ctx = .error e) ∧
      (∀ i o, kv.2.input.div s.amount = some i → kv.2.output.div s.amount = some o →
        i.unit ≠ 0 → o.unit = 0 → o.mag = 0 →
        ∃ e, s.to_reply ctx = .error e)) := by
  refine ⟨?_, ?_, ?_, ?_, ?_, ?_⟩
  · intro h m
    unfold Substance.get
    rw [if_neg h]
    exact getInstance_ne_panic s name s.properties m
  · intro h pre k p rest hprops hskip
    have hget : s.get name = getInstance s name ((k, p) :: rest) := by
      unfold Substance.get
      rw [if_neg h, hprops, getInstance_append_skip s name pre _ hskip]
    refine ⟨?_, ?_, ?_⟩
    · intro hmatch hz
      rw [hget]
      simp only [getInstance]
      have hdi : p.input.div s.amount = none := (number_div_eq_none_iff _ _).mpr hz
      have hdo : p.output.div s.amount = none := (number_div_eq_none_iff _ _).mpr hz
      by_cases ho : name = p.output_name
      · rw [if_pos ho]
        unfold outputSide
        simp only [hdi]
      · rw [if_neg ho, if_pos (hmatch.resolve_left ho)]
        unfold inputSide
        simp only [hdo]
    · intro ho step1 hstep hu hz
      rw [hget]
      simp only [getInstance]
      rw [if_pos ho]
      unfold outputSide
      simp only [hstep]
      rw [if_pos hu]
      have hd : p.output.div step1 = none := (number_div_eq_none_iff _ _).mpr hz
      simp only [hd]
    · intro hno hin step1 hstep hu hz
      rw [hget]
      simp only [getInstance]
      rw [if_neg hno, if_pos hin]
      unfold inputSide
      simp only [hstep]
      rw [if_pos hu]
      have hd : p.input.div step1 = none := (number_div_eq_none_iff _ _).mpr hz
      simp only [hd]
  · intro h m hp
    unfold Substance.get at hp
    rw [if_pos h] at hp
    cases hl : s.properties.lookup name with
    | none => rw [hl] at hp; simp at hp
    | some p =>
      cases hd : (s.amount.mul p.input).div p.output with
      | none =>
        simp only [hl, hd] at hp
        simp at hp
        exact ⟨hp.symm, p, rfl, (number_div_eq_none_iff _ _).mp hd⟩
      | some r => simp only [hl, hd] at hp; simp at hp
  · intro h p hl hz
    unfold Substance.get
    rw [if_pos h]
    have hd : (s.amount.mul p.input).div p.output = none :=
      (number_div_eq_none_iff _ _).mpr hz
    simp only [hl, hd]
  · intro h kv hmem hu hz
    obtain ⟨e, he⟩ := defFunc_zero_div s ctx kv hu hz
    obtain ⟨e', he'⟩ := collectE_mem_error (defFunc s ctx) s.properties kv e hmem he
    rw [to_reply_def_mode s ctx h, he']
    exact ⟨e', rfl⟩
  · intro h kv hmem
    refine ⟨?_, ?_, ?_⟩
    · intro hz
      obtain ⟨e, he⟩ := instFunc_ne_ok_amount s ctx kv hz
      obtain ⟨e', he'⟩ := collectE_mem_error (instFunc s ctx) s.properties kv e hmem he
      rw [to_reply_inst_mode s ctx h, he']
      exact ⟨e', rfl⟩
    · intro i hi hu hz
      obtain ⟨e, he⟩ := instFunc_inner_zero_out s ctx kv i hi hu hz
      obtain ⟨e', he'⟩ := collectE_mem_error (instFunc s ctx) s.properties kv e hmem he
      rw [to_reply_inst_mode s ctx h, he']
      exact ⟨e', rfl⟩
    · intro i o hi ho hiu hou hz
      obtain ⟨e, he⟩ := instFunc_inner_zero_in s ctx kv i o hi ho hiu hou hz
      obtain ⟨e', he'⟩ := collectE_mem_error (instFunc s ctx) s.properties kv e hmem he
      rw [to_reply_inst_mode s ctx h, he']
      exact ⟨e', rfl⟩

/-- Witness for C3 (amended): instance-mode `get` on `sInst` is not a
panic, and on `sC1` — whose first property matches on `output_name` with
a dimensionless zero-magnitude `step1` — the zero divisor of the inner
division yields `Generic "Division by zero"`. -/
theorem c3_no_panic_amended_witness :
    sInst.get "volume" ≠ .panic "boom" ∧
    sC1.get "out" = .err (.Generic "Division by zero") := by
  constructor
  · exact (c3_no_panic_amended sInst "volume" ctxW).1 (by decide) "boom"
  · exact ((c3_no_panic_amended sC1 "out" ctxW).2.1 (by decide) [] "k" pZeroIn []
      rfl (by simp)).2.1 rfl ⟨0, 0⟩
      (by norm_num [Number.div, sC1, pZeroIn, dMass, Prod.ext_iff]) rfl rfl

/-- C6: `substance * q` always succeeds, scaling the amount by `q` and
keeping the property table structurally equal; `substance / q` fails with
the generic message `"Division by zero"` iff `q`'s magnitude is zero and
otherwise scales the amount by `1/q` with the same property table; the
operations build new substances and never modify the original (they are
pure functions of `s`). -/
theorem c6_scaling_operators (s : Substance) (q : Number) :
    s.mulNum q = .ok ⟨s.amount.mul q, s.properties⟩ ∧
    (q.mag = 0 → s.divNum q = .error "Division by zero") ∧
    (q.mag ≠ 0 →
      s.divNum q = .ok ⟨⟨s.amount.mag / q.mag, s.amount.unit - q.unit⟩, s.properties⟩) := by
  refine ⟨rfl, ?_, ?_⟩
  · intro h
    unfold Substance.divNum
    rw [(number_div_eq_none_iff s.amount q).mpr h]
  · intro h
    unfold Substance.divNum
    rw [(number_div_eq_some_iff s.amount q _).mpr ⟨h, rfl⟩]

/-- Witness for C6 at a concrete substance and quantity. -/
theorem c6_scaling_operators_witness :
    sInst.mulNum ⟨3, dMass⟩ = .ok ⟨sInst.amount.mul ⟨3, dMass⟩, sInst.properties⟩ ∧
    sInst.divNum ⟨0, dMass⟩ = .error "Division by zero" ∧
    sInst.divNum ⟨3, dMass⟩ =
      .ok ⟨⟨sInst.amount.mag / 3, sInst.amount.unit - dMass⟩, sInst.properties⟩ :=
  ⟨(c6_scaling_operators sInst ⟨3, dMass⟩).1,
   (c6_scaling_operators sInst ⟨0, dMass⟩).2.1 rfl,
   (c6_scaling_operators sInst ⟨3, dMass⟩).2.2 (by decide)⟩

/-- C7: for every substance and quantity `q` with nonzero magnitude,
`(substance / q) * q` succeeds and reproduces the original substance
exactly — both the amount (magnitudes and dimensions are exact rationals
here) and the property table. -/
theorem c7_div_mul_roundtrip (s : Substance) (q : Number) (h : q.mag ≠ 0) :
    ∃ s₁, s.divNum q = .ok s₁ ∧ s₁.mulNum q = .ok ⟨s.amount, s.properties⟩ := by
  refine ⟨⟨⟨s.amount.mag / q.mag, s.amount.unit - q.unit⟩, s.properties⟩, ?_, ?_⟩
  · unfold Substance.divNum
    rw [(number_div_eq_some_iff s.amount q _).mpr ⟨h, rfl⟩]
  · unfold Substance.mulNum Number.mul
    have hmag : s.amount.mag / q.mag * q.mag = s.amount.mag := div_mul_cancel₀ s.amount.mag h
    have hunit : s.amount.unit - q.unit + q.unit = s.amount.unit :=
      sub_add_cancel s.amount.unit q.unit
    simp [hmag, hunit]

/-- Witness for C7 at a concrete substance and quantity. -/
theorem c7_div_mul_roundtrip_witness :
    ∃ s₁, sInst.divNum ⟨2, dVol⟩ = .ok s₁ ∧
      s₁.mulNum ⟨2, dVol⟩ = .ok ⟨sInst.amount, sInst.properties⟩ :=
  c7_div_mul_roundtrip sInst ⟨2, dVol⟩ (by decide)

/-- C8: `show` is total — it returns the rendered reply list when
`to_reply` succeeds and returns `to_reply`'s error message verbatim when
it fails. -/
theorem c8_show_total (s : Substance) (ctx : Context) :
    (∀ v, s.to_reply ctx = .ok v → s.show' ctx = ctx.formatReply v) ∧
    (∀ e, s.to_reply ctx = .error e → s.show' ctx = e) := by
  constructor
  · intro v hv
    unfold Substance.show'
    rw [hv]
  · intro e he
    unfold Substance.show'
    rw [he]

/-- Witness for C8: on a definitional substance with an empty property
map, `to_reply` succeeds with the empty record list and `show` returns the
renderer's formatting of it. -/
theorem c8_show_total_witness :
    Substance.show' ⟨⟨1, 0⟩, []⟩ ctxW = ctxW.formatReply ⟨[]⟩ :=
  (c8_show_total ⟨⟨1, 0⟩, []⟩ ctxW).1 ⟨[]⟩ rfl

theorem sInst2_collect : collectE (instFunc sInst2 ctxW) sInst2.properties = .ok rsW := by
  norm_num [collectE, instFunc, Number.div, Number.mul, sInst2, pA, pB, pC, dMass, dVol, dTime,
    ctxW, rsW, recA, recB, Prod.ext_iff]

theorem sInst2_reply : sInst2.to_reply ctxW = .ok replyI := by
  rw [to_reply_inst_mode sInst2 ctxW (by decide)]
  simp only [sInst2_collect]
  rfl

theorem sDef2_collect : collectE (defFunc sDef2 ctxW) sDef2.properties = .ok replyD.properties := by
  norm_num [collectE, defFunc, Number.div, Number.mul, sDef2, pDA, pDB, dMass, dVol,
    ctxW, replyD, Prod.ext_iff]

theorem sDef2_reply : sDef2.to_reply ctxW = .ok replyD := by
  rw [to_reply_def_mode sDef2 ctxW rfl]
  simp only [sDef2_collect]

/-- C5: for every definitional-mode substance with a non-empty property
map, a successful `to_reply` yields exactly one record per property
(cardinality preserved), named by and ordered as the keys — hence in
lexicographic order under the B-tree invariant — and any division by zero
while deriving any single property's record makes the whole call fail with
a descriptive error (no partial reply). -/
theorem c5_definitional_reply (s : Substance) (ctx : Context)
    (h : s.amount.unit = 0) (hne : s.properties ≠ []) :
    (∀ reply, s.to_reply ctx = .ok reply →
      reply.properties.length = s.properties.length ∧
      reply.properties.map (fun r => r.name) = s.properties.map (fun kv => kv.1) ∧
      (SortedKeys s.properties →
        List.Chain' (fun a b : String => a < b)
          (reply.properties.map (fun r => r.name)))) ∧
    (∀ kv ∈ s.properties, kv.2.input.unit = 0 → kv.2.input.mag = 0 →
      ∃ e, s.to_reply ctx = .error e ∧
        ∃ a b, e = "Division by zero: <" ++ a ++ "> / <" ++ b ++ ">") := by
  constructor
  · intro reply hreply
    rw [to_reply_def_mode s ctx h] at hreply
    cases hc : collectE (defFunc s ctx) s.properties with
    | error e => rw [hc] at hreply; simp at hreply
    | ok l =>
      rw [hc] at hreply
      simp at hreply
      subst hreply
      have hnames := collectE_def_names s ctx s.properties l hc
      refine ⟨?_, hnames, ?_⟩
      · simpa using collectE_ok_length (defFunc s ctx) s.properties l hc
      · intro hsorted
        simp only [hnames]
        exact (List.chain'_map Prod.fst).mpr hsorted
  · intro kv hmem hu hz
    obtain ⟨e, he⟩ := defFunc_zero_div s ctx kv hu hz
    obtain ⟨e', he'⟩ := collectE_mem_error (defFunc s ctx) s.properties kv e hmem he
    obtain ⟨x, _, hx⟩ := collectE_error_mem (defFunc s ctx) s.properties e' he'
    refine ⟨e', ?_, defFunc_error_shape s ctx x e' hx⟩
    rw [to_reply_def_mode s ctx h, he']

/-- Witness for C5 at the definitional substance `sDef2`. -/
theorem c5_definitional_reply_witness :
    replyD.properties.length = sDef2.properties.length ∧
    replyD.properties.map (fun r => r.name) = sDef2.properties.map (fun kv => kv.1) ∧
    List.Chain' (fun a b : String => a < b) (replyD.properties.map (fun r => r.name)) := by
  have h := (c5_definitional_reply sDef2 ctxW rfl (by decide)).1 replyD sDef2_reply
  have hab : ("a" : String) < "b" := by
    simp
    decide
  exact ⟨h.1, h.2.1, h.2.2 (List.chain'_cons.mpr ⟨hab, List.chain'_singleton _⟩)⟩

/-- C9: in instance mode, within a single property `get` tests
`output_name` before `input_name`: when the first scanned property whose
names match the query has both names equal to it, `get` performs the
output-side derivation, never the input-side one. -/
theorem c9_output_name_priority (s : Substance) (name k : String) (p : Property)
    (pre rest : List (String × Property)) (hmode : s.amount.unit ≠ 0)
    (hprops : s.properties = pre ++ (k, p) :: rest)
    (hskip : ∀ kv ∈ pre, name ≠ kv.2.output_name ∧ name ≠ kv.2.input_name)
    (hout : p.output_name = name) (hin : p.input_name = name) :
    s.get name = outputSide s p := by
  unfold Substance.get
  rw [if_neg hmode, hprops, getInstance_append_skip s name pre _ hskip]
  simp only [getInstance]
  rw [if_pos hout.symm]

/-- Witness for C9 at `sBoth`, whose second property is named `"x"` on
both sides. -/
theorem c9_output_name_priority_witness :
    sBoth.get "x" = outputSide sBoth pBoth :=
  c9_output_name_priority sBoth "x" "b" pBoth [("a", pNo)] [] (by decide) rfl
    (by decide) rfl rfl

/-- C10: every record of a definitional-mode reply is named by the
property's key in the map, in order; every per-property record of an
instance-mode reply (everything after the synthetic amount record) is
named by its property's `output_name` or `input_name`. -/
theorem c10_record_naming (s : Substance) (ctx : Context) (reply : SubstanceReply)
    (hr : s.to_reply ctx = .ok reply) :
    (s.amount.unit = 0 →
      reply.properties.map (fun r => r.name) = s.properties.map (fun kv => kv.1)) ∧
    (s.amount.unit ≠ 0 → ∀ rs, collectE (instFunc s ctx) s.properties = .ok rs →
      reply.properties = amountReply s ctx :: rs.filterMap id ∧
      ∀ i kv, s.properties.get? i = some kv → ∀ r, rs.get? i = some (some r) →
        r.name = kv.2.output_name ∨ r.name = kv.2.input_name) := by
  constructor
  · intro h
    rw [to_reply_def_mode s ctx h] at hr
    cases hc : collectE (defFunc s ctx) s.properties with
    | error e => rw [hc] at hr; simp at hr
    | ok l =>
      rw [hc] at hr
      simp at hr
      subst hr
      exact collectE_def_names s ctx s.properties l hc
  · intro h rs hc
    rw [to_reply_inst_mode s ctx h] at hr
    rw [hc] at hr
    simp at hr
    subst hr
    refine ⟨rfl, ?_⟩
    intro i kv hkv r hri
    obtain ⟨hilen, hig⟩ := List.get?_eq_some.mp hkv
    obtain ⟨hrlen, hrg⟩ := List.get?_eq_some.mp hri
    have hf := collectE_ok_get (instFunc s ctx) s.properties rs hc i hilen hrlen
    rw [hig, hrg] at hf
    exact (instFunc_ok_some s ctx kv r hf).1

/-- Witness for C10: the definitional reply of `sDef2` is named by keys,
and the first per-property record of `sInst2`'s instance reply is named by
`pA`'s `output_name`. -/
theorem c10_record_naming_witness :
    replyD.properties.map (fun r => r.name) = sDef2.properties.map (fun kv => kv.1) ∧
    replyI.properties = amountReply sInst2 ctxW :: rsW.filterMap id ∧
    (recA.name = pA.output_name ∨ recA.name = pA.input_name) := by
  have h1 := (c10_record_naming sDef2 ctxW replyD sDef2_reply).1 rfl
  have h2 := (c10_record_naming sInst2 ctxW replyI sInst2_reply).2 (by decide) rsW sInst2_collect
  exact ⟨h1, h2.1, h2.2 0 ("a", pA) rfl recA rfl⟩

/-- C4: in instance mode, each property contributes at most one record to
the reply (named by its `output_name` or `input_name`, never both, and
never when both quotients against the sample are non-dimensionless), and
a property whose two quotients are both non-dimensionless is silently
dropped (its collection result is `ok none` — no error), the call
succeeding around it. -/
theorem c4_instance_reply_filtering (s : Substance) (ctx : Context)
    (h : s.amount.unit ≠ 0) (reply : SubstanceReply) (hr : s.to_reply ctx = .ok reply)
    (rs : List (Option PropertyReply)) (hc : collectE (instFunc s ctx) s.properties = .ok rs) :
    reply.properties = amountReply s ctx :: rs.filterMap id ∧
    rs.length = s.properties.length ∧
    ∀ i kv, s.properties.get? i = some kv →
      ((∀ r, rs.get? i = some (some r) →
        (r.name = kv.2.output_name ∨ r.name = kv.2.input_name) ∧ ¬ bothNonDim s kv.2) ∧
       (bothNonDim s kv.2 → rs.get? i = some none)) := by
  rw [to_reply_inst_mode s ctx h, hc] at hr
  simp at hr
  subst hr
  have hlen := collectE_ok_length (instFunc s ctx) s.properties rs hc
  refine ⟨rfl, hlen, ?_⟩
  intro i kv hkv
  obtain ⟨hilen, hig⟩ := List.get?_eq_some.mp hkv
  have hirs : i < rs.length := by rw [hlen]; exact hilen
  have hf := collectE_ok_get (instFunc s ctx) s.properties rs hc i hilen hirs
  rw [hig] at hf
  constructor
  · intro r hri
    obtain ⟨hrlen, hrg⟩ := List.get?_eq_some.mp hri
    rw [hrg] at hf
    exact instFunc_ok_some s ctx kv r hf
  · intro hboth
    have hnone := instFunc_both_none s ctx kv hboth
    rw [hnone] at hf
    have : rs.get ⟨i, hirs⟩ = none := by
      cases hg : rs.get ⟨i, hirs⟩ with
      | none => rfl
      | some v => rw [hg] at hf; simp at hf
    rw [List.get?_eq_get hirs, this]

/-- Witness for C4 at `sInst2`: the dropped property `pC` yields `none`
in the collection (and the call still succeeds with the other records). -/
theorem c4_instance_reply_filtering_witness :
    replyI.properties = amountReply sInst2 ctxW :: rsW.filterMap id ∧
    rsW.length = sInst2.properties.length ∧
    rsW.get? 2 = some none := by
  have h := c4_instance_reply_filtering sInst2 ctxW (by decide) replyI sInst2_reply
    rsW sInst2_collect
  refine ⟨h.1, h.2.1, ?_⟩
  refine (h.2.2 2 ("c", pC) rfl).2 ?_
  refine ⟨⟨1/2, dVol - dMass⟩, ⟨1/2, dTime - dMass⟩, ?_, ?_,
    by norm_num [dVol, dMass, Prod.ext_iff], by norm_num [dTime, dMass, Prod.ext_iff]⟩
  · norm_num [Number.div, sInst2, pC, dMass, dVol, Prod.ext_iff]
  · norm_num [Number.div, sInst2, pC, dMass, dTime, Prod.ext_iff]
